import Mathlib

/-!
Verification of the penny-vault/import-tiingo ingestion pipeline.

This file shallowly embeds the Go functions of `tiingo/download.go` and the
root command of `cmd` (the later of the two revisions present in the
repository, which is the one the claims cite) and proves or refutes the
frozen claims about them.

Modelling conventions:
* Go strings are Lean `String`s.
* `float32` payload fields are only ever copied by the modelled code, never
  computed with, so they are carried as opaque `Nat` bit patterns; `int64`
  volumes are carried as `Int`.
* The network is a function from the request URL to an abstract response:
  the transport error flag and the HTTP status code (which the code only
  logs) and the result of `json.Unmarshal` on the body, `some qs` when the
  body parses as a JSON array of quote objects and `none` otherwise (a
  transport error leaves an empty body, which never parses).
* Go slices carry both their element list and their capacity, because the
  root command truncates with `assets[:limit]`, whose panic condition
  depends on the capacity, and elements between length and capacity are the
  zero value (nil pointers, modelled as `none`).
-/

namespace ImportTiingo

/-- `tiingo.Asset` (tiingo/download.go): one instrument of the universe. -/
structure Asset where
  compositeFigi : String
  ticker : String
  exchange : String
  assetType : String
  priceCurrency : String
  startDate : String
  endDate : String
deriving Repr, DecidableEq, Inhabited

/-- `tiingo.Eod` (tiingo/download.go): one end-of-day quote record.
`float32` fields are opaque bit patterns (`Nat`), `int64` fields are `Int`;
the modelled code only copies them. `Open` is renamed `openPrice` because
`open` is a Lean keyword. -/
structure Eod where
  date : String
  ticker : String
  exchange : String
  assetType : String
  compositeFigi : String
  openPrice : Nat
  high : Nat
  low : Nat
  close : Nat
  volume : Int
  adjustedOpen : Nat
  adjustedHigh : Nat
  adjustedLow : Nat
  adjustedClose : Nat
  adjustedVolume : Int
  dividend : Nat
  split : Nat
deriving Repr, DecidableEq, Inhabited

/-! ## Go `time.Parse("2006-01-02", s)`

`FilterAge` parses asset end dates with layout `2006-01-02`.  We model the
accepted inputs as exactly ten characters `YYYY-MM-DD`, all date parts
decimal digits, with the month in 1..12 and the day in range for the month
(Go's parser rejects out-of-range months and days).  Signed years such as
`-123-01-02`, which Go's `atoi` would accept, are not modelled: end dates in
this data set are calendar dates of listed instruments.  The parse result is
the instant of midnight UTC of that civil date, in nanoseconds since the
Unix epoch, matching Go's `time.Time`/`time.Duration` arithmetic. -/

/-- Decimal value of a digit list (all characters assumed `Char.isDigit`). -/
def digitsToNat (cs : List Char) : Nat :=
  cs.foldl (fun n c => 10 * n + (c.toNat - Char.toNat '0')) 0

/-- Gregorian leap-year test, as used by Go's `time` package. -/
def isLeapYear (y : Nat) : Bool :=
  y % 4 = 0 && (y % 100 ≠ 0 || y % 400 = 0)

/-- Number of days in month `m` (1..12) of year `y`. -/
def daysInMonth (y m : Nat) : Nat :=
  if m = 2 then (if isLeapYear y then 29 else 28)
  else if m = 4 || m = 6 || m = 9 || m = 11 then 30
  else 31

/-- Days from the civil date `y-m-d` to 1970-01-01 (negative before the
epoch); the standard civil-from-days algorithm.  All divisions below are on
non-negative operands, so Lean's truncated `Int` division agrees with
mathematical floor division here. -/
def daysFromCivil (y : Int) (m d : Nat) : Int :=
  let yAdj : Int := if m ≤ 2 then y - 1 else y
  let era : Int := (if 0 ≤ yAdj then yAdj else yAdj - 399) / 400
  let yoe : Int := yAdj - era * 400
  let mp : Int := (Int.ofNat m + 9) % 12
  let doy : Int := (153 * mp + 2) / 5 + Int.ofNat d - 1
  let doe : Int := yoe * 365 + yoe / 4 - yoe / 100 + doy
  era * 146097 + doe - 719468

/-- Nanoseconds per civil day (Go ignores leap seconds). -/
def nsPerDay : Int := 86400000000000

/-- Model of Go `time.Parse("2006-01-02", s)`: `some t` is the parsed
instant in nanoseconds since the Unix epoch (midnight UTC), `none` is a
parse error. -/
def goTimeParseDate (s : String) : Option Int :=
  match s.toList with
  | [y1, y2, y3, y4, '-', m1, m2, '-', d1, d2] =>
    if ([y1, y2, y3, y4, m1, m2, d1, d2]).all Char.isDigit then
      let y := digitsToNat [y1, y2, y3, y4]
      let m := digitsToNat [m1, m2]
      let d := digitsToNat [d1, d2]
      if 1 ≤ m ∧ m ≤ 12 ∧ 1 ≤ d ∧ d ≤ daysInMonth y m then
        some (nsPerDay * daysFromCivil (Int.ofNat y) m d)
      else none
    else none
  | _ => none

/-! ## Go slices with capacity

`FilterAge` builds its result with `res := make([]*Asset, 0, len(assets))`
followed by `append`, and the root command truncates with `assets[:limit]`.
A Go slice expression `s[:n]` succeeds for `n ≤ cap(s)` — elements between
`len(s)` and `n` are the zero values left in the backing array — and panics
with "slice bounds out of range" only for `n > cap(s)`.  So the capacity is
semantically relevant and is carried alongside the element list. -/

/-- A Go slice: its elements and its capacity. -/
structure GoSlice (α : Type) where
  data : List α
  cap : Nat
deriving Repr, DecidableEq

/-- `make([]T, 0, c)`. -/
def GoSlice.make (α : Type) (c : Nat) : GoSlice α := ⟨[], c⟩

/-- Go `append(s, x)`.  Within capacity the backing array is reused; at
capacity Go reallocates with a grown capacity (doubling for small slices —
the growth branch is never reached by the modelled code, which appends at
most `cap` elements). -/
def GoSlice.push (s : GoSlice α) (x : α) : GoSlice α :=
  if s.data.length < s.cap then ⟨s.data ++ [x], s.cap⟩
  else ⟨s.data ++ [x], max (2 * s.cap) 1⟩

/-- Reason a Go slice expression panics. -/
inductive SlicePanic where
  | outOfRange
deriving Repr, DecidableEq

/-- Go `s[:n]` on a slice of pointers (`[]*Asset`): in range up to the
length it yields a prefix; between length and capacity it exposes the
zeroed (nil, here `none`) backing elements; beyond the capacity it panics. -/
def GoSlice.takePtr (s : GoSlice α) (n : Nat) : Except SlicePanic (List (Option α)) :=
  if n ≤ s.data.length then .ok ((s.data.take n).map some)
  else if n ≤ s.cap then
    .ok (s.data.map some ++ List.replicate (n - s.data.length) none)
  else .error .outOfRange

/-! ## `FilterAge` (tiingo/download.go) -/

/-- `tiingo.FilterAge`: keep assets whose end date parses with layout
`2006-01-02` and whose age `today.Sub(endDate)` is strictly below `maxAge`.
`today` (the code's `time.Now()`) and `maxAge` are in nanoseconds.  The
result is the Go slice built from `make([]*Asset, 0, len(assets))` by
appending, so its capacity records the pre-filter length.
`filterAgeStep` is one iteration of its loop: parse the end date (`continue`
on error), compute `age := today.Sub(endDate)` and append when
`maxAge > age`. -/
def filterAgeStep (maxAge : Int) (today : Int) (res : GoSlice Asset)
    (asset : Asset) : GoSlice Asset :=
  match goTimeParseDate asset.endDate with
  | none => res
  | some endDate => if maxAge > today - endDate then res.push asset else res

/-- `tiingo.FilterAge`: the loop over `assets` starting from
`make([]*Asset, 0, len(assets))`. -/
def FilterAge (assets : List Asset) (maxAge : Int) (today : Int) : GoSlice Asset :=
  assets.foldl (filterAgeStep maxAge today) (GoSlice.make Asset assets.length)

/-- The membership test `FilterAge` applies to one asset: the end date
parses and the age is strictly less than `maxAge`. -/
def ageKeep (maxAge : Int) (today : Int) (a : Asset) : Bool :=
  match goTimeParseDate a.endDate with
  | none => false
  | some endDate => maxAge > today - endDate

/-! ## Root command truncation (cmd, `unnamed/part_000` lines 51–54)

```go
limit := viper.GetInt("limit")
if limit > 0 {
    assets = assets[:limit]
}
```
The result is the `[]*Asset` value flowing on (nil entries possible when the
slice reaches into the zeroed backing array), or a runtime panic. -/

/-- The root command's limit truncation applied to the filtered asset
slice. -/
def rootLimitTruncate (assets : GoSlice Asset) (limit : Int) :
    Except SlicePanic (List (Option Asset)) :=
  if limit > 0 then assets.takePtr limit.toNat
  else .ok (assets.data.map some)

/-! ## `FetchEodQuotes` (tiingo/download.go lines 243–283) -/

/-- Abstract HTTP response for one GET, as the code consumes it:
`getErr` is `err != nil` from the client, `statusCode` the HTTP status —
both are only logged — and `parsed` the outcome of
`json.Unmarshal(resp.Body(), &quote)`: `some qs` when the body is a JSON
array of quotes, `none` on any parse error (a transport error leaves an
empty body, which never parses). -/
structure HttpResp where
  getErr : Bool
  statusCode : Nat
  parsed : Option (List Eod)
deriving Repr, DecidableEq

/-- The request URL built in the loop body:
`fmt.Sprintf("https://api.tiingo.com/tiingo/daily/%s/prices?startDate=%s&token=%s", asset.Ticker, startDateStr, token)`.
The ticker is substituted verbatim. -/
def eodUrl (token : String) (startDateStr : String) (ticker : String) : String :=
  "https://api.tiingo.com/tiingo/daily/" ++ ticker ++ "/prices?startDate=" ++
    startDateStr ++ "&token=" ++ token

/-- The stamping of one parsed quote inside the parse-success branch:
`q.Ticker = asset.Ticker; q.Exchange = asset.Exchange;
q.AssetType = asset.AssetType; q.CompositeFigi = asset.CompositeFigi`. -/
def stamp (asset : Asset) (q : Eod) : Eod :=
  { q with
    ticker := asset.ticker
    exchange := asset.exchange
    assetType := asset.assetType
    compositeFigi := asset.compositeFigi }

/-- One iteration of the `tiingo.FetchEodQuotes` loop, instrumented with the
URL requested: the code takes a rate-limit token and ticks the progress bar
(no effect on the result), issues one GET at `eodUrl`, logs any transport
error and any status ≥ 400 (without branching on either), then unmarshals
the body; on parse success each quote is stamped with the asset's identity
and appended to the shared `quotes` slice.  The first accumulator component
records each GET issued, in order; the second is the `quotes` slice. -/
def fetchStep (net : String → HttpResp) (token : String) (startDateStr : String)
    (acc : List String × List Eod) (asset : Asset) : List String × List Eod :=
  let url := eodUrl token startDateStr asset.ticker
  let resp := net url
  match resp.parsed with
  | none => (acc.1 ++ [url], acc.2)
  | some quote =>
    (acc.1 ++ [url], quote.foldl (fun qs q => qs ++ [stamp asset q]) acc.2)

/-- The loop of `tiingo.FetchEodQuotes` over the asset list, starting from
the empty url trace and `quotes := []*Eod{}`. -/
def FetchEodQuotesWithUrls (net : String → HttpResp) (token : String)
    (startDateStr : String) (assets : List Asset) : List String × List Eod :=
  assets.foldl (fetchStep net token startDateStr) ([], [])

/-- `tiingo.FetchEodQuotes`: the merged quote list returned to the caller. -/
def FetchEodQuotes (net : String → HttpResp) (token : String)
    (startDateStr : String) (assets : List Asset) : List Eod :=
  (FetchEodQuotesWithUrls net token startDateStr assets).2

/-- Records one instrument contributes to the merged output: its parsed
quote array, stamped, in provider order; an unparseable body contributes
nothing. -/
def perAssetRecords (net : String → HttpResp) (token : String)
    (startDateStr : String) (asset : Asset) : List Eod :=
  ((net (eodUrl token startDateStr asset.ticker)).parsed.getD []).map (stamp asset)

/-! ## `SaveToParquet` (tiingo/download.go lines 202–241) -/

/-- Failure switches of the parquet environment: creation of the local file
writer, creation of the parquet writer, per-record `pw.Write`, and the
final `pw.WriteStop`. -/
structure ParquetEnv where
  openErr : Bool
  newWriterErr : Bool
  writeErr : Eod → Bool
  stopErr : Bool

/-- Which fatal step `SaveToParquet` returned an error from. -/
inductive ParquetErr where
  | openFile
  | newWriter
  | writeStop
deriving Repr, DecidableEq

deriving instance DecidableEq for Except

/-- Observable outcome of `SaveToParquet`: the returned error (if any), the
records handed to `pw.Write` in order, those whose write succeeded, and the
`NumRecords` count logged on the success path. -/
structure ParquetTrace where
  result : Except ParquetErr Unit
  attempted : List Eod
  written : List Eod
  reported : Option Nat
deriving Repr, DecidableEq

/-- `tiingo.SaveToParquet`: a failed file open or writer creation returns
the error with no record attempted; otherwise the loop calls `pw.Write` on
every record in order, logging and skipping failures; a failed `WriteStop`
returns the error; on success `log.Info().Int("NumRecords", len(records))`
reports the length of the input list. -/
def SaveToParquet (env : ParquetEnv) (records : List Eod) : ParquetTrace :=
  if env.openErr then ⟨.error .openFile, [], [], none⟩
  else if env.newWriterErr then ⟨.error .newWriter, [], [], none⟩
  else
    let written := records.filter (fun r => !env.writeErr r)
    if env.stopErr then ⟨.error .writeStop, records, written, none⟩
    else ⟨.ok (), records, written, some records.length⟩

/-! ## `SaveToDatabase` (relational upsert sink) -/

/-- Failure switches of the database environment: connection to the store,
per-record canonical-schema upsert, per-record legacy-schema upsert. -/
structure DbEnv where
  connectErr : Bool
  canonicalErr : Eod → Bool
  legacyErr : Eod → Bool

/-- Observable outcome of `SaveToDatabase`: whether the whole save aborted
on connection failure, the records attempted against the canonical schema,
those retried against the legacy schema, those persisted by either path,
and those lost after both paths failed (logged only). -/
structure DbTrace where
  connected : Bool
  canonicalAttempts : List Eod
  legacyAttempts : List Eod
  persisted : List Eod
  lost : List Eod
deriving Repr, DecidableEq

/-- Modelled from the spec: `tiingo.SaveToDatabase` is called from the root
command (`cmd/tickers.go` line 129, `unnamed/part_000` line 62) but its body
is not among the provided sources.  Per spec §4.6/§7: opening the
connection is fatal; for each record a canonical-schema upsert is
attempted; if it fails an equivalent legacy-schema statement is executed;
a failure of that fallback is logged only and never aborts the batch or
escalates, so such a record is silently lost while processing continues. -/
def SaveToDatabase (env : DbEnv) (records : List Eod) : DbTrace :=
  if env.connectErr then ⟨false, [], [], [], []⟩
  else
    { connected := true
      canonicalAttempts := records
      legacyAttempts := records.filter (fun r => env.canonicalErr r)
      persisted := records.filter (fun r => !env.canonicalErr r || !env.legacyErr r)
      lost := records.filter (fun r => env.canonicalErr r && env.legacyErr r) }

/-! ## Spec-side definitions (for refinement comparisons only)

These two follow the spec's words, not the source, and exist to be compared
with the source embeddings. -/

/-- Modelled from the spec: request URL with "any `/` in the ticker
rewritten to `-` before substitution" (spec §4.3, §8). -/
def specEodUrl (token : String) (startDateStr : String) (ticker : String) : String :=
  eodUrl token startDateStr
    (String.mk (ticker.toList.map (fun c => if c = '/' then '-' else c)))

/-- Modelled from the spec: date normalization of §3/§8 — "a quote dated
`2022-01-03` for any source timezone normalizes to `2022-01-03T16:00:00` in
the instrument's exchange-local zone": the civil-date part with the
market-close time of day appended. -/
def specNormalizeDate (d : String) : String :=
  d.take 10 ++ "T16:00:00"

/-! ## Concrete sample data for witnesses and counterexamples -/

/-- A provider payload quote: carries a provider-side ticker and composite
identifier (which the code must overwrite) and a bare civil trade date. -/
def qPayload : Eod :=
  { (default : Eod) with
    date := "2022-01-03"
    ticker := "PAYLOAD"
    compositeFigi := "PAYFIGI" }

/-- An instrument with full identity. -/
def msft : Asset :=
  { (default : Asset) with
    ticker := "MSFT"
    exchange := "NASDAQ"
    assetType := "Stock"
    compositeFigi := "BBG000BPH459" }

/-- An instrument whose composite identifier is empty (as produced for every
asset by the CSV universe decode, which has no composite-identifier
column). -/
def noFigi : Asset := { (default : Asset) with ticker := "MSFT" }

/-- An instrument whose ticker contains a `/`. -/
def brkB : Asset := { (default : Asset) with ticker := "BRK/B" }

/-- An instrument whose end date does not parse with layout `2006-01-02`. -/
def oldAsset : Asset := { (default : Asset) with ticker := "OLD", endDate := "x" }

def assetA : Asset := { (default : Asset) with ticker := "A", compositeFigi := "FA" }

def assetB : Asset := { (default : Asset) with ticker := "B", compositeFigi := "FB" }

def assetC : Asset := { (default : Asset) with ticker := "C", compositeFigi := "FC" }

/-- A network where every request succeeds with body `[qPayload]`. -/
def netOk : String → HttpResp := fun _ => ⟨false, 200, some [qPayload]⟩

/-- A network where every request yields HTTP 500 whose body nevertheless
parses as the JSON array `[qPayload]`. -/
def net500 : String → HttpResp := fun _ => ⟨false, 500, some [qPayload]⟩

/-- A network where the request for ticker `B` yields HTTP 404 with an
unparseable body and every other request succeeds with `[qPayload]`. -/
def netBad : String → HttpResp := fun url =>
  if url = eodUrl "tok" "2022-01-01" "B" then ⟨false, 404, none⟩
  else ⟨false, 200, some [qPayload]⟩

/-- Parquet environment whose file open fails. -/
def envOpenFail : ParquetEnv := ⟨true, false, fun _ => false, false⟩

/-- Parquet environment where writing the payload record fails and
`WriteStop` fails. -/
def envStopFail : ParquetEnv :=
  ⟨false, false, fun r => r.ticker = "PAYLOAD", true⟩

/-- Parquet environment where only writing the payload record fails. -/
def envWriteFail : ParquetEnv :=
  ⟨false, false, fun r => r.ticker = "PAYLOAD", false⟩

/-- Database environment where the canonical upsert fails for every record
and the legacy fallback fails for the payload record only. -/
def dbEnvFallback : DbEnv :=
  ⟨false, fun _ => true, fun r => r.ticker = "PAYLOAD"⟩

/-! ## Helper lemmas -/

theorem foldl_append_singleton (f : α → β) (l : List α) (acc : List β) :
    l.foldl (fun qs q => qs ++ [f q]) acc = acc ++ l.map f := by
  induction l generalizing acc with
  | nil => simp
  | cons x xs ih => simp [ih]

theorem fetchStep_spec (net : String → HttpResp) (token startDateStr : String)
    (acc : List String × List Eod) (asset : Asset) :
    fetchStep net token startDateStr acc asset =
      (acc.1 ++ [eodUrl token startDateStr asset.ticker],
       acc.2 ++ perAssetRecords net token startDateStr asset) := by
  unfold fetchStep perAssetRecords
  cases h : (net (eodUrl token startDateStr asset.ticker)).parsed with
  | none => simp [h]
  | some quote => simp [h, foldl_append_singleton]

theorem fetch_foldl_acc (net : String → HttpResp) (token startDateStr : String)
    (assets : List Asset) (acc : List String × List Eod) :
    assets.foldl (fetchStep net token startDateStr) acc =
      (acc.1 ++ assets.map (fun a => eodUrl token startDateStr a.ticker),
       acc.2 ++ assets.flatMap (perAssetRecords net token startDateStr)) := by
  induction assets generalizing acc with
  | nil => simp
  | cons a rest ih => simp [ih, fetchStep_spec]

theorem fetchEodQuotesWithUrls_spec (net : String → HttpResp)
    (token startDateStr : String) (assets : List Asset) :
    FetchEodQuotesWithUrls net token startDateStr assets =
      (assets.map (fun a => eodUrl token startDateStr a.ticker),
       assets.flatMap (perAssetRecords net token startDateStr)) := by
  simp [FetchEodQuotesWithUrls, fetch_foldl_acc]

theorem fetchEodQuotes_eq_flatMap (net : String → HttpResp)
    (token startDateStr : String) (assets : List Asset) :
    FetchEodQuotes net token startDateStr assets =
      assets.flatMap (perAssetRecords net token startDateStr) := by
  simp [FetchEodQuotes, fetchEodQuotesWithUrls_spec]

theorem GoSlice.push_data (s : GoSlice α) (x : α) :
    (s.push x).data = s.data ++ [x] := by
  unfold GoSlice.push
  split <;> rfl

theorem GoSlice.push_cap_of_lt (s : GoSlice α) (x : α)
    (h : s.data.length < s.cap) : (s.push x).cap = s.cap := by
  simp [GoSlice.push, h]

theorem filterAgeStep_data (maxAge today : Int) (res : GoSlice Asset) (a : Asset) :
    (filterAgeStep maxAge today res a).data =
      res.data ++ (if ageKeep maxAge today a then [a] else []) := by
  cases h : goTimeParseDate a.endDate with
  | none => simp [filterAgeStep, ageKeep, h]
  | some d =>
    simp only [filterAgeStep, ageKeep, h]
    split <;> simp_all [GoSlice.push_data, gt_iff_lt]

theorem filterAge_foldl_data (maxAge today : Int) (l : List Asset) (s : GoSlice Asset) :
    (l.foldl (filterAgeStep maxAge today) s).data =
      s.data ++ l.filter (ageKeep maxAge today) := by
  induction l generalizing s with
  | nil => simp
  | cons a rest ih =>
    rw [List.foldl_cons, ih, List.filter_cons, filterAgeStep_data]
    split <;> simp

theorem filterAge_foldl_cap (maxAge today : Int) (l : List Asset) (s : GoSlice Asset)
    (h : s.data.length + l.length ≤ s.cap) :
    (l.foldl (filterAgeStep maxAge today) s).cap = s.cap := by
  induction l generalizing s with
  | nil => rfl
  | cons a rest ih =>
    have hlt : s.data.length < s.cap := by simp at h; omega
    have hcap : (filterAgeStep maxAge today s a).cap = s.cap := by
      cases h2 : goTimeParseDate a.endDate with
      | none => simp [filterAgeStep, h2]
      | some d =>
        simp only [filterAgeStep, h2]
        split
        · exact GoSlice.push_cap_of_lt s a hlt
        · rfl
    have hlen : (filterAgeStep maxAge today s a).data.length ≤ s.data.length + 1 := by
      rw [filterAgeStep_data]
      split <;> simp
    rw [List.foldl_cons, ih]
    · exact hcap
    · rw [hcap]
      simp at h
      omega

theorem filterAge_data (assets : List Asset) (maxAge today : Int) :
    (FilterAge assets maxAge today).data = assets.filter (ageKeep maxAge today) := by
  rw [FilterAge, filterAge_foldl_data]
  rfl

theorem filterAge_cap (assets : List Asset) (maxAge today : Int) :
    (FilterAge assets maxAge today).cap = assets.length := by
  rw [FilterAge, filterAge_foldl_cap]
  · rfl
  · simp [GoSlice.make]

/-! ## Claims -/

/-- C1, counterexample: an HTTP status ≥ 400 alone does not give zero
records.  For one instrument whose response has status 500 but whose body
still parses as the JSON array `[qPayload]`, `FetchEodQuotes` returns that
instrument's stamped record, not the empty contribution the claim
asserts for every status ≥ 400 fetch. -/
theorem fetchEodQuotes_status500_still_contributes :
    (net500 (eodUrl "tok" "2022-01-01" msft.ticker)).statusCode = 500 ∧
    FetchEodQuotes net500 "tok" "2022-01-01" [msft] = [stamp msft qPayload] ∧
    FetchEodQuotes net500 "tok" "2022-01-01" [msft] ≠ [] := by
  decide

/-- C1 (amended): an instrument whose response body fails to parse as a
JSON array — which is the case on a network failure, whose body is empty —
contributes exactly zero records, does not abort processing, and is not
surfaced as an error: the run's result is the same as if the instrument
were absent from the list. -/
theorem fetchEodQuotes_unparseable_body_isolated (net : String → HttpResp)
    (token startDateStr : String) (pre post : List Asset) (a : Asset)
    (h : (net (eodUrl token startDateStr a.ticker)).parsed = none) :
    FetchEodQuotes net token startDateStr (pre ++ a :: post) =
      FetchEodQuotes net token startDateStr (pre ++ post) := by
  rw [fetchEodQuotes_eq_flatMap, fetchEodQuotes_eq_flatMap]
  simp [perAssetRecords, h]

/-- C1 witness: with instruments `[A, B, C]` where B's fetch yields HTTP 404
and an unparseable body, the merged output equals that of `[A, C]`. -/
theorem fetchEodQuotes_unparseable_body_isolated_witness :
    (netBad (eodUrl "tok" "2022-01-01" assetB.ticker)).parsed = none ∧
    FetchEodQuotes netBad "tok" "2022-01-01" [assetA, assetB, assetC] =
      FetchEodQuotes netBad "tok" "2022-01-01" [assetA, assetC] :=
  ⟨by decide,
   fetchEodQuotes_unparseable_body_isolated netBad "tok" "2022-01-01"
     [assetA] [assetC] assetB (by decide)⟩

/-- C2, counterexample: the ticker is substituted into the request URL
verbatim — ticker `BRK/B` produces path segment `BRK/B`, not the `BRK-B`
the claim (and spec §8) requires. -/
theorem fetchEodQuotes_ticker_not_rewritten :
    (FetchEodQuotesWithUrls netOk "tok" "2022-01-01" [brkB]).1 =
      ["https://api.tiingo.com/tiingo/daily/BRK/B/prices?startDate=2022-01-01&token=tok"] ∧
    specEodUrl "tok" "2022-01-01" brkB.ticker =
      "https://api.tiingo.com/tiingo/daily/BRK-B/prices?startDate=2022-01-01&token=tok" ∧
    (FetchEodQuotesWithUrls netOk "tok" "2022-01-01" [brkB]).1 ≠
      [specEodUrl "tok" "2022-01-01" brkB.ticker] := by
  decide

/-- C2 (amended): for N instruments exactly N GET requests are issued, one
per instrument in list order, each at the templated endpoint with the
ticker substituted verbatim (no `/` → `-` rewriting). -/
theorem fetchEodQuotes_one_request_per_asset (net : String → HttpResp)
    (token startDateStr : String) (assets : List Asset) :
    (FetchEodQuotesWithUrls net token startDateStr assets).1 =
      assets.map (fun a => eodUrl token startDateStr a.ticker) ∧
    (FetchEodQuotesWithUrls net token startDateStr assets).1.length =
      assets.length := by
  simp [fetchEodQuotesWithUrls_spec]

/-- C7: the merged output is the concatenation, in instrument list order,
of each instrument's record list, and one instrument's records are its
provider-returned quote array, stamped, in provider order. -/
theorem fetchEodQuotes_concat_in_order (net : String → HttpResp)
    (token startDateStr : String) (assets : List Asset) :
    FetchEodQuotes net token startDateStr assets =
      (assets.map (perAssetRecords net token startDateStr)).flatten := by
  rw [fetchEodQuotes_eq_flatMap]
  simp [List.flatMap]

/-- C3, counterexample: the composite identifier is copied from the owning
instrument even when the instrument's is empty, so the produced record's
composite identifier is "" — refuting the claim that it is always
non-empty.  The provider payload carried a non-empty ticker `PAYLOAD` and
identifier `PAYFIGI`, which the copy overwrote. -/
theorem fetchEodQuotes_empty_figi_record :
    (FetchEodQuotes netOk "tok" "2022-01-01" [noFigi]).map Eod.compositeFigi = [""] ∧
    (FetchEodQuotes netOk "tok" "2022-01-01" [noFigi]).map Eod.ticker = ["MSFT"] ∧
    qPayload.ticker = "PAYLOAD" ∧ qPayload.compositeFigi = "PAYFIGI" := by
  decide

/-- C3 (amended): every record in the merged output carries its owning
instrument's ticker, composite identifier, exchange and asset type, copied
over whatever the provider payload contained; consequently the ticker and
composite identifier are non-empty whenever every instrument's are. -/
theorem fetchEodQuotes_stamps_identity (net : String → HttpResp)
    (token startDateStr : String) (assets : List Asset)
    (h : ∀ a ∈ assets, a.ticker ≠ "" ∧ a.compositeFigi ≠ "") :
    ∀ r ∈ FetchEodQuotes net token startDateStr assets,
      (∃ a ∈ assets, r.ticker = a.ticker ∧ r.compositeFigi = a.compositeFigi ∧
        r.exchange = a.exchange ∧ r.assetType = a.assetType) ∧
      r.ticker ≠ "" ∧ r.compositeFigi ≠ "" := by
  intro r hr
  rw [fetchEodQuotes_eq_flatMap] at hr
  obtain ⟨a, ha, hra⟩ := List.mem_flatMap.mp hr
  obtain ⟨q, _, rfl⟩ := List.mem_map.mp hra
  exact ⟨⟨a, ha, rfl, rfl, rfl, rfl⟩, (h a ha).1, (h a ha).2⟩

/-- C3 witness: for the instrument `msft` (non-empty ticker and composite
identifier) the produced record carries non-empty identity fields. -/
theorem fetchEodQuotes_stamps_identity_witness :
    (stamp msft qPayload).ticker ≠ "" ∧ (stamp msft qPayload).compositeFigi ≠ "" := by
  have h := fetchEodQuotes_stamps_identity netOk "tok" "2022-01-01" [msft]
    (by decide) (stamp msft qPayload) (by decide)
  exact ⟨h.2.1, h.2.2⟩

/-- C4, counterexample: a parseable provider date is not normalized.  For a
quote dated `2022-01-03` the produced record's date is still `2022-01-03`,
not the exchange-local market-close instant `2022-01-03T16:00:00` the claim
(spec §3/§8) requires. -/
theorem fetchEodQuotes_date_not_normalized :
    (FetchEodQuotes netOk "tok" "2022-01-01" [msft]).map Eod.date = ["2022-01-03"] ∧
    specNormalizeDate "2022-01-03" = "2022-01-03T16:00:00" ∧
    ("2022-01-03" : String) ≠ specNormalizeDate "2022-01-03" := by
  decide

/-- C4 (amended): every record retains its provider-supplied date
unmodified, whether or not it is parseable — the trade dates of the merged
output are exactly the provider-returned dates, in order; no market-close
normalization is performed. -/
theorem fetchEodQuotes_dates_passthrough (net : String → HttpResp)
    (token startDateStr : String) (assets : List Asset) :
    (FetchEodQuotes net token startDateStr assets).map Eod.date =
      assets.flatMap (fun a =>
        ((net (eodUrl token startDateStr a.ticker)).parsed.getD []).map Eod.date) := by
  rw [fetchEodQuotes_eq_flatMap]
  rw [List.map_flatMap]
  simp [perAssetRecords, List.map_map, Function.comp_def, stamp]

/-- C5: the columnar sink's error policy — a failed open of the destination
aborts the whole operation with an error and nothing attempted; otherwise
(writer created) every record is handed to the writer in order regardless
of individual failures, the failed ones being skipped; and the final
`WriteStop` is fatal exactly when it fails, the operation succeeding
otherwise. -/
theorem saveToParquet_error_policy (envA envB : ParquetEnv) (records : List Eod)
    (hA : envA.openErr = true)
    (h1 : envB.openErr = false) (h2 : envB.newWriterErr = false) :
    (SaveToParquet envA records).result = .error .openFile ∧
    (SaveToParquet envA records).attempted = [] ∧
    (SaveToParquet envA records).written = [] ∧
    (SaveToParquet envB records).attempted = records ∧
    (SaveToParquet envB records).written =
      records.filter (fun r => !envB.writeErr r) ∧
    ((SaveToParquet envB records).result = .error .writeStop ↔
      envB.stopErr = true) ∧
    (envB.stopErr = false → (SaveToParquet envB records).result = .ok ()) := by
  cases hstop : envB.stopErr <;> simp [SaveToParquet, hA, h1, h2, hstop]

/-- C5 witness: with an environment whose open fails, and one whose
per-record write fails on the payload record and whose `WriteStop` fails,
the policy instantiates as claimed. -/
theorem saveToParquet_error_policy_witness :
    (SaveToParquet envOpenFail [qPayload]).result = .error .openFile ∧
    (SaveToParquet envStopFail [qPayload]).attempted = [qPayload] ∧
    (SaveToParquet envStopFail [qPayload]).result = .error .writeStop := by
  have h := saveToParquet_error_policy envOpenFail envStopFail [qPayload]
    (by decide) (by decide) (by decide)
  exact ⟨h.1, h.2.2.2.1, (h.2.2.2.2.2.1).mpr (by decide)⟩

/-- C6, counterexample: on success the sink logs the length of the input
list, not the number of records actually written — with one record whose
write failed, it reports 1 while 0 records were written. -/
theorem saveToParquet_reports_total_counterexample :
    (SaveToParquet envWriteFail [qPayload]).reported = some 1 ∧
    (SaveToParquet envWriteFail [qPayload]).written.length = 0 ∧
    (SaveToParquet envWriteFail [qPayload]).reported ≠
      some (SaveToParquet envWriteFail [qPayload]).written.length := by
  decide

/-- C6 (amended): on successful completion the sink reports the total
number of input records, which equals the number successfully written only
when no per-record write failed. -/
theorem saveToParquet_reports_input_length (env : ParquetEnv) (records : List Eod)
    (h1 : env.openErr = false) (h2 : env.newWriterErr = false)
    (h3 : env.stopErr = false) :
    (SaveToParquet env records).reported = some records.length := by
  simp [SaveToParquet, h1, h2, h3]

/-- C6 witness: the environment with a failing per-record write still
reports the input count 1. -/
theorem saveToParquet_reports_input_length_witness :
    (SaveToParquet envWriteFail [qPayload]).reported = some 1 :=
  saveToParquet_reports_input_length envWriteFail [qPayload] rfl rfl rfl

/-- C8 (modelled from the spec, §4.6/§7): once connected, every record is
attempted against the canonical schema; each record whose canonical upsert
fails is retried against the legacy schema; a record whose fallback also
fails is lost and not persisted, while the batch still completes — all
records are processed and no error escalates. -/
theorem saveToDatabase_fallback_policy (env : DbEnv) (records : List Eod)
    (h : env.connectErr = false) :
    (SaveToDatabase env records).connected = true ∧
    (SaveToDatabase env records).canonicalAttempts = records ∧
    (∀ r ∈ records, env.canonicalErr r = true →
      r ∈ (SaveToDatabase env records).legacyAttempts) ∧
    (∀ r ∈ records, env.canonicalErr r = true → env.legacyErr r = true →
      r ∈ (SaveToDatabase env records).lost ∧
      r ∉ (SaveToDatabase env records).persisted) := by
  refine ⟨by simp [SaveToDatabase, h], by simp [SaveToDatabase, h], ?_, ?_⟩
  · intro r hr hc
    simp [SaveToDatabase, h, List.mem_filter, hr, hc]
  · intro r hr hc hl
    simp [SaveToDatabase, h, List.mem_filter, hr, hc, hl]

/-- C8 witness: with every canonical upsert failing and the legacy fallback
failing only for the payload record, that record is lost and not persisted
while the other record of the batch is still processed. -/
theorem saveToDatabase_fallback_policy_witness :
    qPayload ∈ (SaveToDatabase dbEnvFallback [qPayload, stamp msft qPayload]).lost ∧
    qPayload ∉ (SaveToDatabase dbEnvFallback [qPayload, stamp msft qPayload]).persisted ∧
    (SaveToDatabase dbEnvFallback [qPayload, stamp msft qPayload]).canonicalAttempts =
      [qPayload, stamp msft qPayload] := by
  have h := saveToDatabase_fallback_policy dbEnvFallback
    [qPayload, stamp msft qPayload] (by decide)
  have h2 := h.2.2.2 qPayload (by decide) (by decide) (by decide)
  exact ⟨h2.1, h2.2, h.2.1⟩

/-- C9, counterexample: a positive limit strictly greater than the number
of (filtered) assets does not necessarily panic.  With one asset dropped by
the age filter (unparseable end date), the filtered slice has length 0 but
capacity 1, so `assets[:1]` succeeds and yields a single nil entry instead
of panicking. -/
theorem rootLimit_no_panic_counterexample :
    (FilterAge [oldAsset] 0 0).data.length = 0 ∧
    (0 : Int) < 1 ∧
    rootLimitTruncate (FilterAge [oldAsset] 0 0) 1 = .ok [none] := by
  decide

/-- C9 (amended): the truncation panics exactly when the limit exceeds the
slice's capacity; for the main pipeline the capacity of the age-filtered
slice is the pre-filter asset count, so a positive limit greater than the
pre-filter count makes the run panic with an out-of-range slice. -/
theorem rootLimit_panics_beyond_capacity (assets : List Asset)
    (maxAge today limit : Int)
    (h1 : 0 < limit) (h2 : assets.length < limit.toNat) :
    rootLimitTruncate (FilterAge assets maxAge today) limit =
      .error .outOfRange := by
  have hcap := filterAge_cap assets maxAge today
  have hdata : (FilterAge assets maxAge today).data.length ≤ assets.length := by
    rw [filterAge_data]
    exact List.length_filter_le _ _
  have c1 : ¬ (limit.toNat ≤ (FilterAge assets maxAge today).data.length) := by
    omega
  have c2 : ¬ (limit.toNat ≤ (FilterAge assets maxAge today).cap) := by
    rw [hcap]
    omega
  simp [rootLimitTruncate, GoSlice.takePtr, h1, c1, c2]

/-- C9 witness: with one asset and limit 2 the truncation panics. -/
theorem rootLimit_panics_beyond_capacity_witness :
    (0 : Int) < 2 ∧ [msft].length < (2 : Int).toNat ∧
    rootLimitTruncate (FilterAge [msft] 0 0) 2 = .error .outOfRange :=
  ⟨by decide, by decide,
   rootLimit_panics_beyond_capacity [msft] 0 0 2 (by decide) (by decide)⟩

/-- C10: `FilterAge` returns exactly the assets, in original order, whose
end date parses with layout `2006-01-02` and whose age (now minus the
parsed end date) is strictly below `maxAge`; the membership test is false —
the asset silently dropped — whenever the end date fails to parse, and for
a parsed end date it is exactly the strict age comparison. -/
theorem filterAge_keeps_fresh_parseable (assets : List Asset) (maxAge today : Int) :
    (FilterAge assets maxAge today).data = assets.filter (ageKeep maxAge today) ∧
    (∀ a : Asset, goTimeParseDate a.endDate = none →
      ageKeep maxAge today a = false) ∧
    (∀ (a : Asset) (d : Int), goTimeParseDate a.endDate = some d →
      (ageKeep maxAge today a = true ↔ today - d < maxAge)) := by
  refine ⟨filterAge_data assets maxAge today, ?_, ?_⟩
  · intro a h
    simp [ageKeep, h]
  · intro a d h
    simp [ageKeep, h, gt_iff_lt]

/-- C10 witness: an asset whose end date is 2022-01-03 is kept for
`today` = 2022-01-04 with a two-day `maxAge` and dropped with a one-day
`maxAge`; an unparseable end date is dropped. -/
theorem filterAge_keeps_fresh_parseable_witness :
    goTimeParseDate oldAsset.endDate = none ∧
    ageKeep 0 0 oldAsset = false ∧
    goTimeParseDate "2022-01-03" = some (18995 * nsPerDay) ∧
    (FilterAge [oldAsset] 0 0).data = [] := by
  have h := filterAge_keeps_fresh_parseable [oldAsset] 0 0
  exact ⟨by decide, h.2.1 oldAsset (by decide), by decide,
    by rw [h.1]; decide⟩

end ImportTiingo
